import Mathlib

/-!
Shallow embedding of the Womersley-flow CFD validation harness
(`prepare_real_mesh.py`, `womersleyBC.py`, `problems/general_problem.py`,
`problems/womersley_cylinder.py`).

Scalar values produced by the external PDE framework (norms, assembled
integrals) enter the model as real-number inputs; Python floats are modelled
as real numbers, and the exact-rational time bookkeeping of the step loop as
rationals.  Fallible operations (Python `IndexError`, a raised
`RuntimeError`) are modelled with `Option` / an explicit raised flag.
-/

namespace Projection

/-! ## Time and cycle bookkeeping

From `GeneralProblem.initialize` (`stepsInSecond = int(round(1.0 / dt))`) and
`Problem.update_time` in `womersley_cylinder.py`. -/

/-- Python 2 `int(round(x))`: round half away from zero. -/
def pyRound (x : ℚ) : ℤ :=
  if x < 0 then -Int.floor (-x + 1/2) else Int.floor (x + 1/2)

/-- Source: `self.stepsInSecond = int(round(1.0 / self.metadata['dt']))`
(`general_problem.py`, line 232). -/
def stepsInSecond (dt : ℚ) : ℤ := pyRound (1 / dt)

/-- The cycle-closing test of `Problem.update_time` (`womersley_cylinder.py`,
line 170): `self.actual_time > 0.5 and int(round(self.actual_time * 1000)) % 1000 == 0`. -/
def wholeSecondTest (t : ℚ) : Prop := 1/2 < t ∧ pyRound (1000 * t) % 1000 = 0

instance (t : ℚ) : Decidable (wholeSecondTest t) := by
  unfold wholeSecondTest; infer_instance

/-- The cycle-relevant state mutated by `Problem.update_time`:
`second_list`, `N0`, `N1` and the `isWholeSecond` flag.  (The base-class
bookkeeping of `actual_time`, `step_number`, `time_list`, the onset factor
and the save-stride flag touches no claim and is not carried here.) -/
structure TimeState where
  secondList : List ℤ
  N0 : ℤ
  N1 : ℤ
  isWholeSecond : Bool

/-- Model of `Problem.update_time` (`womersley_cylinder.py`, lines 168-177), cycle part:
on a whole second record `seconds = int(round(t))`, append it to
`second_list` and set `N1 = seconds*stepsInSecond`, `N0 = (seconds-1)*stepsInSecond`;
otherwise only clear the flag (`N0`, `N1` keep their previous values). -/
def update_time (S : ℤ) (ts : TimeState) (t : ℚ) : TimeState :=
  if wholeSecondTest t then
    let seconds := pyRound t
    { secondList := ts.secondList ++ [seconds]
      N0 := (seconds - 1) * S
      N1 := seconds * S
      isWholeSecond := true }
  else
    { ts with isWholeSecond := false }

/-! ## Series aggregation

From `GeneralProblem.compute_div` and `GeneralProblem.compute_err`
(`general_problem.py`), which append per-step values and, on a whole second,
append the cycle aggregate of the window `list[N0:N1]`. -/

/-- Python slice `l[a:b]` for the nonnegative indices used by the engine. -/
def pySlice (l : List ℝ) (a b : ℤ) : List ℝ :=
  (l.drop a.toNat).take (b - a).toNat

/-- Source expression `sum([i*i for i in l])`. -/
noncomputable def sumSq (l : List ℝ) : ℝ := (l.map fun i => i * i).sum

/-- One functional series: per-step `list` and per-cycle `slist`. -/
structure SeriesS where
  list : List ℝ
  slist : List ℝ

/-- Model of `GeneralProblem.compute_div` (`general_problem.py`, lines 268-275): append
the `Hdiv0` norm of the velocity (an external scalar input here), and on a
whole second append `sum([i*i for i in div_list[N0:N1]])/stepsInSecond`
— note: no square root. -/
noncomputable def compute_div (S N0 N1 : ℤ) (whole : Bool) (st : SeriesS) (divNorm : ℝ) : SeriesS :=
  let l := st.list ++ [divNorm]
  { list := l
    slist := if whole then st.slist ++ [sumSq (pySlice l N0 N1) / (S : ℝ)] else st.slist }

/-- The RMS of a list of values, written from the spec's words
("sqrt of the mean of squares") for comparison with the code's aggregates. -/
noncomputable def rmsSpec (l : List ℝ) : ℝ := Real.sqrt (sumSq l / (l.length : ℝ))

/-- Source: `self.divergence_treshold = 10` (`general_problem.py`, line 46),
the default stopping threshold for the relative H1 velocity error
(spelled as in the source). -/
noncomputable def divergence_treshold : ℝ := 10

/-- The series state touched by `GeneralProblem.compute_err`: the selected
L2 and H1 error series (`u_L2`/`u2L2` resp. `u_H1`/`u2H1` — the tentative
flag is a pure series selector, so one pair is carried), the `test` lists
and `self.last_error`. -/
structure ErrState where
  u_L2 : SeriesS
  u_H1 : SeriesS
  u_L2test : List ℝ
  u_H1test : List ℝ
  last_error : ℝ

/-- Model of `GeneralProblem.compute_err` (`general_problem.py`, lines 292-323).
The assembled integrals `errorL2_sq`, `errorH1seminorm_sq` (and the
`errornorm` results used in test mode) are external scalar inputs.  It
appends `errorL2 = sqrt(errorL2_sq)` and
`errorH1 = sqrt(errorL2_sq + errorH1seminorm_sq)`, sets
`last_error = errorH1 / analytic_v_norm_H1`, on a whole second appends the
`sqrt(sum of squares / stepsInSecond)` cycle aggregates, and only then
raises `RuntimeError` when `last_error > treshold`; the second component
of the result is that raised condition. -/
noncomputable def compute_err (doErrControl testErrControl has_analytic : Bool)
    (S N0 N1 : ℤ) (whole : Bool)
    (analytic_v_norm_L2 analytic_v_norm_H1 : ℝ)
    (errorL2_sq errorH1seminorm_sq : ℝ) (errornormL2 errornormH1 : ℝ)
    (treshold : ℝ) (st : ErrState) : ErrState × Prop :=
  if doErrControl && has_analytic then
    let errorL2 := Real.sqrt errorL2_sq
    let errorH1 := Real.sqrt (errorL2_sq + errorH1seminorm_sq)
    let last_error := errorH1 / analytic_v_norm_H1
    let er_list_L2 := st.u_L2.list ++ [errorL2]
    let er_list_H1 := st.u_H1.list ++ [errorH1]
    let testL2 := if testErrControl then st.u_L2test ++ [errornormL2] else st.u_L2test
    let testH1 := if testErrControl then st.u_H1test ++ [errornormH1] else st.u_H1test
    let sL2 := if whole then
        st.u_L2.slist ++ [Real.sqrt (sumSq (pySlice er_list_L2 N0 N1) / (S : ℝ))]
      else st.u_L2.slist
    let sH1 := if whole then
        st.u_H1.slist ++ [Real.sqrt (sumSq (pySlice er_list_H1 N0 N1) / (S : ℝ))]
      else st.u_H1.slist
    (⟨⟨er_list_L2, sL2⟩, ⟨er_list_H1, sH1⟩, testL2, testH1, last_error⟩,
      last_error > treshold)
  else (st, False)

/-- One step of input to a `compute_div` run: the window bounds and
whole-second flag produced by `update_time`, and the externally computed
`Hdiv0` norm. -/
structure DivStepIn where
  N0 : ℤ
  N1 : ℤ
  whole : Bool
  value : ℝ

/-- Iterated `compute_div` over a run of steps. -/
noncomputable def run_compute_div (S : ℤ) (steps : List DivStepIn) (st : SeriesS) : SeriesS :=
  steps.foldl (fun s p => compute_div S p.N0 p.N1 p.whole s p.value) st

/-- One step of input to a `compute_err` run. -/
structure ErrStepIn where
  N0 : ℤ
  N1 : ℤ
  whole : Bool
  errorL2_sq : ℝ
  errorH1seminorm_sq : ℝ

/-- Iterated `compute_err` (error control on, test mode off, unit analytic
norms, default threshold), keeping the series state. -/
noncomputable def run_compute_err (S : ℤ) (steps : List ErrStepIn) (st : ErrState) : ErrState :=
  steps.foldl
    (fun s p =>
      (compute_err true false true S p.N0 p.N1 p.whole 1 1
        p.errorL2_sq p.errorH1seminorm_sq 0 0 divergence_treshold s).1)
    st

/-! ### C4 theorems -/

/-- C4 (amended): `update_time` marks a step as closing a cycle iff
`t > 0.5` and `t` lies within half a *millisecond* of a whole-second
boundary (the half-open window `m - 1/2000 ≤ t < m + 1/2000` determined by
`int(round(t*1000)) % 1000 == 0`) — not within half a *timestep*;
on a closing step the window bounds are `N0 = (round(t)-1)*S`,
`N1 = round(t)*S`, covering the `steps_per_cycle = S` step indices of that
second; and `steps_per_cycle` is derived as `round(1/dt)`, so
`stepsInSecond (1/n) = n` for every positive integer `n`. -/
theorem update_time_cycle_marking_amended (S : ℤ) (ts : TimeState) (t : ℚ)
    (ht : 0 ≤ t) :
    ((update_time S ts t).isWholeSecond = true ↔
      (1/2 < t ∧ ∃ m : ℤ, (m : ℚ) - 1/2000 ≤ t ∧ t < (m : ℚ) + 1/2000))
    ∧ ((update_time S ts t).isWholeSecond = true →
        (update_time S ts t).N0 = (pyRound t - 1) * S
        ∧ (update_time S ts t).N1 = pyRound t * S
        ∧ (update_time S ts t).N1 - (update_time S ts t).N0 = S)
    ∧ (∀ n : ℤ, 0 < n → stepsInSecond (1 / (n : ℚ)) = n) := by
  have hr : pyRound (1000 * t) = Int.floor (1000 * t + 1/2) := by
    unfold pyRound
    rw [if_neg (by push_neg; linarith)]
  have hmod : pyRound (1000 * t) % 1000 = 0 ↔
      ∃ m : ℤ, (m : ℚ) - 1/2000 ≤ t ∧ t < (m : ℚ) + 1/2000 := by
    rw [hr]
    constructor
    · intro h
      obtain ⟨m, hm⟩ := Int.dvd_of_emod_eq_zero h
      refine ⟨m, ?_, ?_⟩
      · have h1 : (1000 * m : ℚ) ≤ 1000 * t + 1/2 := by
          have := Int.floor_le (1000 * t + 1/2 : ℚ)
          rw [hm] at this
          push_cast at this
          linarith
        linarith
      · have h2 : (1000 * t + 1/2 : ℚ) < 1000 * m + 1 := by
          have := Int.lt_floor_add_one (1000 * t + 1/2 : ℚ)
          rw [hm] at this
          push_cast at this
          linarith
        linarith
    · intro ⟨m, hm1, hm2⟩
      have hfl : Int.floor (1000 * t + 1/2 : ℚ) = 1000 * m := by
        rw [Int.floor_eq_iff]
        constructor
        · push_cast
          linarith
        · push_cast
          linarith
      rw [hfl]
      simp [Int.mul_emod_right]
  refine ⟨?_, ?_, ?_⟩
  · unfold update_time wholeSecondTest
    by_cases h : 1/2 < t ∧ pyRound (1000 * t) % 1000 = 0
    · rw [if_pos h]
      exact ⟨fun _ => ⟨h.1, hmod.mp h.2⟩, fun _ => rfl⟩
    · rw [if_neg h]
      refine ⟨fun hh => absurd hh (by simp), fun hp => absurd ⟨hp.1, hmod.mpr hp.2⟩ h⟩
  · intro hws
    unfold update_time at hws ⊢
    by_cases h : wholeSecondTest t
    · rw [if_pos h]
      refine ⟨rfl, rfl, by ring⟩
    · rw [if_neg h] at hws
      simp at hws
  · intro n hn
    have hpos : (0 : ℚ) < (n : ℚ) := by exact_mod_cast hn
    unfold stepsInSecond pyRound
    rw [one_div_one_div, if_neg (by push_neg; linarith)]
    rw [Int.floor_int_add]
    norm_num

/-- Witness for `update_time_cycle_marking_amended` at `t = 1`, `S = 4`. -/
theorem update_time_cycle_marking_amended_witness :
    (0 : ℚ) ≤ 1 ∧
    (((update_time 4 ⟨[], 0, 0, false⟩ 1).isWholeSecond = true ↔
      (1/2 < (1 : ℚ) ∧ ∃ m : ℤ, (m : ℚ) - 1/2000 ≤ 1 ∧ (1 : ℚ) < (m : ℚ) + 1/2000))
    ∧ ((update_time 4 ⟨[], 0, 0, false⟩ 1).isWholeSecond = true →
        (update_time 4 ⟨[], 0, 0, false⟩ 1).N0 = (pyRound 1 - 1) * 4
        ∧ (update_time 4 ⟨[], 0, 0, false⟩ 1).N1 = pyRound 1 * 4
        ∧ (update_time 4 ⟨[], 0, 0, false⟩ 1).N1 - (update_time 4 ⟨[], 0, 0, false⟩ 1).N0 = 4)
    ∧ (∀ n : ℤ, 0 < n → stepsInSecond (1 / (n : ℚ)) = n)) :=
  ⟨by norm_num, update_time_cycle_marking_amended 4 ⟨[], 0, 0, false⟩ 1 (by norm_num)⟩

/-- C4 counterexample: with `dt = 0.3` (so `steps_per_cycle = round(1/0.3) = 3`
and a half-timestep tolerance of `0.15`), the step at `t = 0.9 = 3·dt` is
within half a timestep of the whole second `1` and `t > 0.5`, yet
`update_time` does *not* mark it as closing a cycle: the code's test is
`int(round(t*1000)) % 1000 == 0`, a fixed half-millisecond window. -/
theorem update_time_half_timestep_counterexample :
    stepsInSecond (3/10) = 3
    ∧ (1/2 : ℚ) < 9/10
    ∧ |(9/10 : ℚ) - 1| ≤ (3/10) / 2
    ∧ (update_time 3 ⟨[], 0, 0, false⟩ (9/10)).isWholeSecond = false := by
  refine ⟨?_, by norm_num, by rw [abs_le]; constructor <;> norm_num, ?_⟩
  · unfold stepsInSecond pyRound
    norm_num
  · unfold update_time wholeSecondTest pyRound
    rw [if_neg]
    push_neg
    intro h
    norm_num

/-! ### C3 theorem -/

/-- C3: with error control enabled and an analytic solution present,
`compute_err` raises the divergence stop exactly on the call where the
relative H1 error `sqrt(errorL2_sq + errorH1seminorm_sq) / analytic_v_norm_H1`
exceeds (strictly) the threshold, whose default `divergence_treshold` is 10;
otherwise it returns normally. -/
theorem compute_err_divergence_stop_iff
    (testEC : Bool) (S N0 N1 : ℤ) (whole : Bool)
    (anL2 anH1 l2sq h1sq enL2 enH1 treshold : ℝ) (st : ErrState) :
    ((compute_err true testEC true S N0 N1 whole anL2 anH1 l2sq h1sq enL2 enH1 treshold st).2 ↔
      Real.sqrt (l2sq + h1sq) / anH1 > treshold)
    ∧ divergence_treshold = 10 := by
  constructor
  · simp [compute_err]
  · rfl

/-! ### C10 theorem -/

/-- C10: when `compute_err` raises the divergence stop, the step's L2 and H1
errors have already been appended to their series, and on a cycle boundary so
have the cycle aggregates; the returned state keeps them (no rollback). -/
theorem compute_err_appends_before_stop
    (testEC : Bool) (S N0 N1 : ℤ) (whole : Bool)
    (anL2 anH1 l2sq h1sq enL2 enH1 treshold : ℝ) (st : ErrState)
    (h : (compute_err true testEC true S N0 N1 whole anL2 anH1 l2sq h1sq enL2 enH1 treshold st).2) :
    (compute_err true testEC true S N0 N1 whole anL2 anH1 l2sq h1sq enL2 enH1 treshold st).1.u_L2.list
        = st.u_L2.list ++ [Real.sqrt l2sq]
    ∧ (compute_err true testEC true S N0 N1 whole anL2 anH1 l2sq h1sq enL2 enH1 treshold st).1.u_H1.list
        = st.u_H1.list ++ [Real.sqrt (l2sq + h1sq)]
    ∧ (whole = true →
        (compute_err true testEC true S N0 N1 whole anL2 anH1 l2sq h1sq enL2 enH1 treshold st).1.u_L2.slist
          = st.u_L2.slist
            ++ [Real.sqrt (sumSq (pySlice (st.u_L2.list ++ [Real.sqrt l2sq]) N0 N1) / (S : ℝ))]
        ∧ (compute_err true testEC true S N0 N1 whole anL2 anH1 l2sq h1sq enL2 enH1 treshold st).1.u_H1.slist
          = st.u_H1.slist
            ++ [Real.sqrt (sumSq (pySlice (st.u_H1.list ++ [Real.sqrt (l2sq + h1sq)]) N0 N1) / (S : ℝ))]) := by
  refine ⟨by simp [compute_err], by simp [compute_err], fun hw => ⟨?_, ?_⟩⟩ <;>
    simp [compute_err, hw]

/-- Evaluation fact `sqrt 10000 = 100`, used to instantiate concrete diverging inputs. -/
theorem real_sqrt_ten_thousand : Real.sqrt 10000 = 100 := by
  rw [show (10000 : ℝ) = 100 ^ 2 by norm_num, Real.sqrt_sq (by norm_num : (0:ℝ) ≤ 100)]

/-- Witness for `compute_err_appends_before_stop`: a concrete call with
`errorL2_sq = 10000`, seminorm `0`, analytic H1 norm `1` raises the stop
(relative error 100 > 10) and has appended the errors. -/
theorem compute_err_appends_before_stop_witness :
    ((compute_err true false true 1 0 1 false 1 1 10000 0 0 0 10
        ⟨⟨[], []⟩, ⟨[], []⟩, [], [], 0⟩).2)
    ∧ ((compute_err true false true 1 0 1 false 1 1 10000 0 0 0 10
          ⟨⟨[], []⟩, ⟨[], []⟩, [], [], 0⟩).1.u_L2.list
        = ([] : List ℝ) ++ [Real.sqrt 10000]
      ∧ (compute_err true false true 1 0 1 false 1 1 10000 0 0 0 10
          ⟨⟨[], []⟩, ⟨[], []⟩, [], [], 0⟩).1.u_H1.list
        = ([] : List ℝ) ++ [Real.sqrt (10000 + 0)]
      ∧ (false = true →
          (compute_err true false true 1 0 1 false 1 1 10000 0 0 0 10
            ⟨⟨[], []⟩, ⟨[], []⟩, [], [], 0⟩).1.u_L2.slist
            = ([] : List ℝ)
              ++ [Real.sqrt (sumSq (pySlice (([] : List ℝ) ++ [Real.sqrt 10000]) 0 1) / ((1:ℤ) : ℝ))]
          ∧ (compute_err true false true 1 0 1 false 1 1 10000 0 0 0 10
            ⟨⟨[], []⟩, ⟨[], []⟩, [], [], 0⟩).1.u_H1.slist
            = ([] : List ℝ)
              ++ [Real.sqrt (sumSq (pySlice (([] : List ℝ) ++ [Real.sqrt (10000 + 0)]) 0 1) / ((1:ℤ) : ℝ))])) := by
  have h : (compute_err true false true 1 0 1 false 1 1 10000 0 0 0 10
      ⟨⟨[], []⟩, ⟨[], []⟩, [], [], 0⟩).2 := by
    simp [compute_err, real_sqrt_ten_thousand]
    norm_num [real_sqrt_ten_thousand]
  exact ⟨h, compute_err_appends_before_stop false 1 0 1 false 1 1 10000 0 0 0 10
    ⟨⟨[], []⟩, ⟨[], []⟩, [], [], 0⟩ h⟩

/-! ### C1 theorems -/

/-- Evaluation fact `sqrt 4 = 2`. -/
theorem real_sqrt_four : Real.sqrt 4 = 2 := by
  rw [show (4 : ℝ) = 2 ^ 2 by norm_num, Real.sqrt_sq (by norm_num : (0:ℝ) ≤ 2)]

/-- Evaluation fact `sqrt 16 = 4`. -/
theorem real_sqrt_sixteen : Real.sqrt 16 = 4 := by
  rw [show (16 : ℝ) = 4 ^ 2 by norm_num, Real.sqrt_sq (by norm_num : (0:ℝ) ≤ 4)]

/-- C1 counterexample: with `steps_per_cycle = 4` and divergence values
`[1,1,1,1,2,2,2,2]` (cycles closed after steps 4 and 8), the divergence
series' cycle aggregates are `[1, 4]` — the second is the *mean of squares*
`(4·2²)/4 = 4`, not the RMS `2` the claim asserts for every kind of series. -/
theorem compute_div_cycle_aggregate_counterexample :
    (run_compute_div 4
      [⟨0, 0, false, 1⟩, ⟨0, 0, false, 1⟩, ⟨0, 0, false, 1⟩, ⟨0, 4, true, 1⟩,
       ⟨0, 4, false, 2⟩, ⟨0, 4, false, 2⟩, ⟨0, 4, false, 2⟩, ⟨4, 8, true, 2⟩]
      ⟨[], []⟩).slist = [1, 4]
    ∧ (2 : ℝ) < 4 := by
  constructor
  · simp [run_compute_div, compute_div, pySlice, sumSq, Int.toNat_ofNat]
    norm_num
  · norm_num

/-- C1 (amended): the cycle aggregate appended for the error-type series
(`u_L2`, `u_H1`, and likewise the pressure/force series) is the RMS of the
closing window when that window holds `steps_per_cycle` entries, so the
error series on values `[1,1,1,1,2,2,2,2]` yield aggregates `[1, 2]`; the
divergence series instead aggregates by the *mean of squares* (the RMS
squared), yielding `[1, 4]` on the same values. -/
theorem cycle_aggregate_rms_amended :
    (∀ (l : List ℝ) (N0 N1 S : ℤ), 0 < S → ((pySlice l N0 N1).length : ℤ) = S →
        Real.sqrt (sumSq (pySlice l N0 N1) / (S : ℝ)) = rmsSpec (pySlice l N0 N1)
        ∧ sumSq (pySlice l N0 N1) / (S : ℝ) = rmsSpec (pySlice l N0 N1) ^ 2)
    ∧ (run_compute_err 4
        [⟨0, 0, false, 1, 0⟩, ⟨0, 0, false, 1, 0⟩, ⟨0, 0, false, 1, 0⟩, ⟨0, 4, true, 1, 0⟩,
         ⟨0, 4, false, 4, 0⟩, ⟨0, 4, false, 4, 0⟩, ⟨0, 4, false, 4, 0⟩, ⟨4, 8, true, 4, 0⟩]
        ⟨⟨[], []⟩, ⟨[], []⟩, [], [], 0⟩).u_L2.slist = [1, 2]
    ∧ (run_compute_err 4
        [⟨0, 0, false, 1, 0⟩, ⟨0, 0, false, 1, 0⟩, ⟨0, 0, false, 1, 0⟩, ⟨0, 4, true, 1, 0⟩,
         ⟨0, 4, false, 4, 0⟩, ⟨0, 4, false, 4, 0⟩, ⟨0, 4, false, 4, 0⟩, ⟨4, 8, true, 4, 0⟩]
        ⟨⟨[], []⟩, ⟨[], []⟩, [], [], 0⟩).u_H1.slist = [1, 2] := by
  have hsumSq_nonneg : ∀ l : List ℝ, 0 ≤ sumSq l := by
    intro l
    apply List.sum_nonneg
    intro x hx
    simp only [List.mem_map] at hx
    obtain ⟨a, _, rfl⟩ := hx
    exact mul_self_nonneg a
  have hmain : ∀ (l : List ℝ) (N0 N1 S : ℤ), 0 < S → ((pySlice l N0 N1).length : ℤ) = S →
      Real.sqrt (sumSq (pySlice l N0 N1) / (S : ℝ)) = rmsSpec (pySlice l N0 N1)
      ∧ sumSq (pySlice l N0 N1) / (S : ℝ) = rmsSpec (pySlice l N0 N1) ^ 2 := by
    intro l N0 N1 S hS hlen
    have hcast : ((pySlice l N0 N1).length : ℝ) = (S : ℝ) := by
      exact_mod_cast congrArg (fun z : ℤ => (z : ℝ)) hlen
    have hSpos : (0 : ℝ) < (S : ℝ) := by exact_mod_cast hS
    constructor
    · rw [rmsSpec, hcast]
    · rw [rmsSpec, hcast, Real.sq_sqrt]
      exact div_nonneg (hsumSq_nonneg _) (le_of_lt hSpos)
  refine ⟨hmain, ?_, ?_⟩ <;>
  · simp [run_compute_err, compute_err, divergence_treshold, pySlice, sumSq,
      Int.toNat_ofNat, Real.sqrt_one, real_sqrt_four]
    norm_num [Real.sqrt_one, real_sqrt_four, real_sqrt_sixteen]

/-- Witness for `cycle_aggregate_rms_amended` on the window `[3,4]` with
`S = 2`. -/
theorem cycle_aggregate_rms_amended_witness :
    (0 : ℤ) < 2 ∧ ((pySlice [(3:ℝ), 4] 0 2).length : ℤ) = 2
    ∧ (Real.sqrt (sumSq (pySlice [(3:ℝ), 4] 0 2) / ((2:ℤ) : ℝ)) = rmsSpec (pySlice [(3:ℝ), 4] 0 2)
      ∧ sumSq (pySlice [(3:ℝ), 4] 0 2) / ((2:ℤ) : ℝ) = rmsSpec (pySlice [(3:ℝ), 4] 0 2) ^ 2) :=
  ⟨by norm_num, by simp [pySlice], cycle_aggregate_rms_amended.1 [(3:ℝ), 4] 0 2 2
    (by norm_num) (by simp [pySlice])⟩

/-! ## Analytic Womersley solution

From `Problem.assemble_solution` (`womersley_cylinder.py`, lines 202-214) and
the 8-mode structure shared with `womersleyBC`. -/

/-- Source: `self.coefs_exp = [-8, -6, -4, -2, 2, 4, 6, 8]`
(`womersley_cylinder.py`, line 69). -/
def coefs_exp : List ℤ := [-8, -6, -4, -2, 2, 4, 6, 8]

/-- Model of `Problem.assemble_solution`, z-axis entries (the `dofs2` indices): start
from the zero vector, add `factor * parab`, then for `idx in range(8)` add
`factor * cos(coefs_exp[idx]*pi*t) * real[idx]` and
`factor * (-sin(coefs_exp[idx]*pi*t)) * imag[idx]`, nodewise.  Nodes are the
abstract index type `ι`; the loaded basis fields `bessel_parabolic`,
`bessel_real`, `bessel_complex` are functions on nodes. -/
noncomputable def assemble_solution_z {ι : Type*} (factor : ℝ) (bessel_parabolic : ι → ℝ)
    (bessel_real bessel_complex : ℕ → ι → ℝ) (t : ℝ) (node : ι) : ℝ :=
  (List.range 8).foldl
    (fun acc idx =>
      acc + factor * Real.cos ((coefs_exp.getD idx 0 : ℝ) * Real.pi * t) * bessel_real idx node
          + factor * (-Real.sin ((coefs_exp.getD idx 0 : ℝ) * Real.pi * t)) * bessel_complex idx node)
    (0 + factor * bessel_parabolic node)

/-- Model of `Problem.assemble_solution`: the full velocity vector at a node — the
x and y entries stay at the assigned zero constant, only the z (axial)
entries are accumulated. -/
noncomputable def assemble_solution {ι : Type*} (factor : ℝ) (bessel_parabolic : ι → ℝ)
    (bessel_real bessel_complex : ℕ → ι → ℝ) (t : ℝ) (node : ι) : ℝ × ℝ × ℝ :=
  (0, 0, assemble_solution_z factor bessel_parabolic bessel_real bessel_complex t node)

/-! ### C2 theorem -/

/-- C2: at every time `t` and node, the assembled analytic velocity has axial
component `factor * (parabolic + Σ_idx cos(k_idx·π·t)·real_idx − sin(k_idx·π·t)·imag_idx)`
with the mode multipliers `k` ranging over `[-8,-6,-4,-2,2,4,6,8]`, and the
other two components are zero. -/
theorem assemble_solution_formula {ι : Type*} (factor : ℝ) (bessel_parabolic : ι → ℝ)
    (bessel_real bessel_complex : ℕ → ι → ℝ) (t : ℝ) (node : ι) :
    assemble_solution factor bessel_parabolic bessel_real bessel_complex t node =
      (0, 0, factor * (bessel_parabolic node
        + ∑ idx ∈ Finset.range 8,
            (Real.cos ((coefs_exp.getD idx 0 : ℝ) * Real.pi * t) * bessel_real idx node
              - Real.sin ((coefs_exp.getD idx 0 : ℝ) * Real.pi * t) * bessel_complex idx node)))
    ∧ coefs_exp = [-8, -6, -4, -2, 2, 4, 6, 8] := by
  refine ⟨?_, rfl⟩
  unfold assemble_solution assemble_solution_z
  rw [show List.range 8 = [0, 1, 2, 3, 4, 5, 6, 7] from rfl]
  simp only [List.foldl_cons, List.foldl_nil]
  rw [Finset.sum_range_succ, Finset.sum_range_succ, Finset.sum_range_succ,
    Finset.sum_range_succ, Finset.sum_range_succ, Finset.sum_range_succ,
    Finset.sum_range_succ, Finset.sum_range_one]
  refine congrArg (Prod.mk 0) (congrArg (Prod.mk 0) ?_)
  ring

/-! ## Analytic pressure gradient (C9)

`womersley_cylinder.py` (line 293) calls
`womersleyBC.analytic_pressure_grad(self.factor, self.actual_time)`, but the
copy of `womersleyBC.py` in this repository contains only the velocity
profile `u` / `u_lambda` and `WomersleyProfile`; the pressure-gradient
function itself is absent. -/

/-- Modelled from the spec: `analytic_pressure_grad` is missing from the
sources (only its caller in `womersley_cylinder.save_pressure` is present).
Per the spec it is a pure closed-form scalar function of `t` and the scale
factor, built from the same calibrated 8-mode Fourier expansion as the
velocity (mode multipliers `coefs_exp`, frequencies `k·π`); the calibration
coefficients `c0`, `a`, `b` are opaque physical constants. -/
noncomputable def analytic_pressure_grad (factor c0 : ℝ) (a b : ℕ → ℝ) (t : ℝ) : ℝ :=
  factor * (c0 + ∑ idx ∈ Finset.range 8,
    (a idx * Real.cos ((coefs_exp.getD idx 0 : ℝ) * Real.pi * t)
      + b idx * Real.sin ((coefs_exp.getD idx 0 : ℝ) * Real.pi * t)))

/-- Periodicity fact `cos (k·π·(t+1)) = cos (k·π·t)` for even integer `k`. -/
theorem cos_even_mul_pi_period (k : ℤ) (hk : 2 ∣ k) (t : ℝ) :
    Real.cos ((k : ℝ) * Real.pi * (t + 1)) = Real.cos ((k : ℝ) * Real.pi * t) := by
  obtain ⟨m, rfl⟩ := hk
  have h : ((2 * m : ℤ) : ℝ) * Real.pi * (t + 1)
      = ((2 * m : ℤ) : ℝ) * Real.pi * t + (m : ℝ) * (2 * Real.pi) := by
    push_cast
    ring
  rw [h, Real.cos_add_int_mul_two_pi]

/-- Periodicity fact `sin (k·π·(t+1)) = sin (k·π·t)` for even integer `k`. -/
theorem sin_even_mul_pi_period (k : ℤ) (hk : 2 ∣ k) (t : ℝ) :
    Real.sin ((k : ℝ) * Real.pi * (t + 1)) = Real.sin ((k : ℝ) * Real.pi * t) := by
  obtain ⟨m, rfl⟩ := hk
  have h : ((2 * m : ℤ) : ℝ) * Real.pi * (t + 1)
      = ((2 * m : ℤ) : ℝ) * Real.pi * t + (m : ℝ) * (2 * Real.pi) := by
    push_cast
    ring
  rw [h, Real.sin_add_int_mul_two_pi]

/-! ### C9 theorem -/

/-- C9: the analytic pressure gradient is a pure closed-form function of `t`
and the scale factor and is periodic with period 1 — exactly, hence within
any numerical tolerance — because every mode multiplier in `coefs_exp` is
even, making all frequencies integer multiples of `2π`. -/
theorem analytic_pressure_grad_periodic (factor c0 : ℝ) (a b : ℕ → ℝ) (t : ℝ) :
    analytic_pressure_grad factor c0 a b (t + 1) = analytic_pressure_grad factor c0 a b t
    ∧ (∀ idx ∈ Finset.range 8, 2 ∣ coefs_exp.getD idx 0) := by
  have heven : ∀ idx ∈ Finset.range 8, 2 ∣ coefs_exp.getD idx 0 := by
    intro idx hidx
    fin_cases hidx <;> decide
  refine ⟨?_, heven⟩
  unfold analytic_pressure_grad
  refine congrArg (factor * ·) (congrArg (c0 + ·) (Finset.sum_congr rfl ?_))
  intro idx hidx
  rw [cos_even_mul_pi_period _ (heven idx hidx), sin_even_mul_pi_period _ (heven idx hidx)]

/-! ## The closed-form boundary profile (C7)

From `WomersleyProfile.eval` (`womersleyBC.py`, lines 34-47).  The closed
form `u_lambda` is a fixed transcendental Bessel-series expression; its real
part at radius `rad` and time `t` enters the model as the opaque function
`u_lambda_re`.  The claim under test asserts the profile vanishes near the
boundary "independently of the basis-field/series content", so the statement
quantifies over that content. -/

/-- Source: `R = 5.0` (`womersleyBC.py`, line 10). -/
noncomputable def R : ℝ := 5

/-- DOLFIN's default `near` tolerance `DOLFIN_EPS = 3.0e-16`. -/
noncomputable def DOLFIN_EPS : ℝ := 3 / 10 ^ 16

/-- DOLFIN's `near(x, x0)`: `x0 - eps ≤ x ≤ x0 + eps` with the default
tolerance. -/
def near (x x0 : ℝ) : Prop := x0 - DOLFIN_EPS ≤ x ∧ x ≤ x0 + DOLFIN_EPS

open Classical in
/-- Model of `WomersleyProfile.eval`: `rad = sqrt(x[0]² + x[1]²)`;
`value[0] = value[1] = 0`; `value[2] = 0 if near(rad, R) else
re(factor * u_lambda(rad, t))`. -/
noncomputable def womersley_profile_eval (factor : ℝ) (u_lambda_re : ℝ → ℝ → ℝ)
    (t x0 x1 : ℝ) : ℝ × ℝ × ℝ :=
  let rad := Real.sqrt (x0 * x0 + x1 * x1)
  (0, 0, if near rad R then 0 else factor * u_lambda_re rad t)

/-! ### C7 theorems -/

/-- C7 counterexample: the point `(4.9, 0)` has radius within the stated
tolerance `edge_min/10 = 0.1` (for `edge_min = 1`) of the boundary radius
`R = 5.0`, yet with closed-form content evaluating to `1` and `factor = 1`
the profile's axial component is `1`, not `0`: the code zeroes the value
only within DOLFIN's `near` tolerance `3e-16`, not within `edge_min/10`. -/
theorem womersley_profile_tolerance_counterexample :
    |Real.sqrt ((49/10 : ℝ) * (49/10) + 0 * 0) - R| ≤ 1/10
    ∧ womersley_profile_eval 1 (fun _ _ => 1) 0 (49/10) 0 = (0, 0, 1)
    ∧ (0 : ℝ) < ((0 : ℝ), (0 : ℝ), (1 : ℝ)).2.2 := by
  have hrad : Real.sqrt ((49/10 : ℝ) * (49/10) + 0 * 0) = 49/10 := by
    rw [show ((49/10 : ℝ) * (49/10) + 0 * 0) = (49/10) ^ 2 by ring,
      Real.sqrt_sq (by norm_num : (0:ℝ) ≤ 49/10)]
  refine ⟨?_, ?_, by norm_num⟩
  · rw [hrad, R, abs_le]
    constructor <;> norm_num
  · simp only [womersley_profile_eval]
    have hnear : ¬ near (Real.sqrt ((49/10 : ℝ) * (49/10) + 0 * 0)) R := by
      intro hn
      have h1 := hn.1
      rw [hrad] at h1
      unfold R DOLFIN_EPS at h1
      norm_num at h1
    rw [if_neg hnear]
    norm_num

/-- C7 (amended): the first two components of `WomersleyProfile.eval` are
always zero, and all three components are exactly zero whenever the radius
is within DOLFIN's `near` tolerance `3e-16` of `R` (in particular at the
radius `R` itself), independently of the closed-form content — but only
within that tolerance, not within `edge_min/10`. -/
theorem womersley_profile_boundary_amended (factor : ℝ) (u_lambda_re : ℝ → ℝ → ℝ)
    (t x0 x1 : ℝ) :
    ((womersley_profile_eval factor u_lambda_re t x0 x1).1 = 0
      ∧ (womersley_profile_eval factor u_lambda_re t x0 x1).2.1 = 0)
    ∧ (near (Real.sqrt (x0 * x0 + x1 * x1)) R →
        womersley_profile_eval factor u_lambda_re t x0 x1 = (0, 0, 0)) := by
  refine ⟨⟨rfl, rfl⟩, fun hn => ?_⟩
  simp only [womersley_profile_eval]
  rw [if_pos hn]

/-- Witness for `womersley_profile_boundary_amended` at the boundary point
`(5, 0)`. -/
theorem womersley_profile_boundary_amended_witness :
    near (Real.sqrt ((5:ℝ) * 5 + 0 * 0)) R
    ∧ womersley_profile_eval 2 (fun _ _ => 7) 3 5 0 = (0, 0, 0) := by
  have hrad : Real.sqrt ((5:ℝ) * 5 + 0 * 0) = 5 := by
    rw [show ((5:ℝ) * 5 + 0 * 0) = (5:ℝ) ^ 2 by ring,
      Real.sqrt_sq (by norm_num : (0:ℝ) ≤ 5)]
  have hn : near (Real.sqrt ((5:ℝ) * 5 + 0 * 0)) R := by
    rw [hrad]
    unfold near R DOLFIN_EPS
    constructor <;> norm_num
  exact ⟨hn, (womersley_profile_boundary_amended 2 (fun _ _ => 7) 3 5 0).2 hn⟩

/-! ## Relative report rows (C6)

From `GeneralProblem.report` (`general_problem.py`, lines 457-461):
`temp_list = [l['list'][i]/norm_list[i] for i in range(0, len(l['list']))]`. -/

/-- A Python list comprehension over a list of indices, where evaluating the
body can raise `IndexError` (modelled as `none`): the comprehension fails as
a whole at the first failing index. -/
def pyListComp {α : Type*} (f : ℕ → Option α) : List ℕ → Option (List α)
  | [] => some []
  | i :: rest =>
    match f i with
    | none => none
    | some v => (pyListComp f rest).map fun l => v :: l

/-- Model of the `relative` row derivation of `GeneralProblem.report`:
divide `l['list'][i]` by `norm_list[i]` pointwise for
`i in range(0, len(l['list']))`; an out-of-range index raises `IndexError`
(`none`). -/
noncomputable def relative_row (lst norm_list : List ℝ) : Option (List ℝ) :=
  pyListComp
    (fun i => (lst.get? i).bind fun a => (norm_list.get? i).map fun r => a / r)
    (List.range lst.length)

/-- A list comprehension succeeds iff every index evaluates successfully. -/
theorem pyListComp_isSome {α : Type*} (f : ℕ → Option α) (l : List ℕ) :
    (pyListComp f l).isSome ↔ ∀ i ∈ l, (f i).isSome := by
  induction l with
  | nil => simp [pyListComp]
  | cons a l ih =>
    cases hfa : f a with
    | none =>
      simp only [pyListComp, hfa]
      simp [hfa]
    | some v =>
      simp only [pyListComp, hfa]
      simp [hfa, ih]

/-- A list comprehension whose body always succeeds is a `map`. -/
theorem pyListComp_eq_map {α : Type*} (f : ℕ → Option α) (g : ℕ → α) (l : List ℕ)
    (h : ∀ i ∈ l, f i = some (g i)) : pyListComp f l = some (l.map g) := by
  induction l with
  | nil => simp [pyListComp]
  | cons a l ih =>
    have ha := h a (List.mem_cons_self a l)
    rw [pyListComp, ha, ih fun i hi => h i (List.mem_cons_of_mem a hi)]
    rfl

/-! ### C6 theorems -/

/-- C6 counterexample: a series `[1]` with a *longer* reference `[1, 2]` has
unequal lengths, yet the relative row derivation succeeds (returning `[1/1]`)
instead of failing — only a shorter reference raises `IndexError`. -/
theorem relative_row_longer_ref_counterexample :
    relative_row [(1:ℝ)] [1, 2] = some [1]
    ∧ [(1:ℝ)].length < [(1:ℝ), 2].length := by
  constructor
  · unfold relative_row
    rw [show List.range [(1:ℝ)].length = [0] from rfl]
    simp [pyListComp]
  · simp

/-- C6 (amended): deriving the relative row fails (with `IndexError`) exactly
when the reference series is *shorter* than the series; whenever the
reference is at least as long — including strictly longer, hence unequal
lengths — it succeeds with the pointwise quotients over the series' length,
ignoring any extra reference entries. -/
theorem relative_row_length_amended (lst ref : List ℝ) :
    ((relative_row lst ref).isSome ↔ lst.length ≤ ref.length)
    ∧ (lst.length ≤ ref.length →
        relative_row lst ref
          = some ((List.range lst.length).map fun i => lst.getD i 0 / ref.getD i 0)) := by
  constructor
  · rw [relative_row, pyListComp_isSome]
    constructor
    · intro h
      by_contra hlt
      push_neg at hlt
      have hmem : ref.length ∈ List.range lst.length := List.mem_range.mpr hlt
      have := h ref.length hmem
      rw [List.get?_eq_none.mpr (le_refl ref.length)] at this
      cases hg : lst.get? ref.length with
      | none => rw [hg] at this; simp at this
      | some a => rw [hg] at this; simp at this
    · intro hle i hi
      have hilt : i < lst.length := List.mem_range.mp hi
      have hiref : i < ref.length := lt_of_lt_of_le hilt hle
      have ha : lst.get? i = some (lst.get ⟨i, hilt⟩) := List.get?_eq_get hilt
      have hr : ref.get? i = some (ref.get ⟨i, hiref⟩) := List.get?_eq_get hiref
      rw [ha, hr]
      simp
  · intro hle
    rw [relative_row]
    apply pyListComp_eq_map
    intro i hi
    have hilt : i < lst.length := List.mem_range.mp hi
    have hiref : i < ref.length := lt_of_lt_of_le hilt hle
    have ha : lst.get? i = some (lst.get ⟨i, hilt⟩) := List.get?_eq_get hilt
    have hr : ref.get? i = some (ref.get ⟨i, hiref⟩) := List.get?_eq_get hiref
    rw [ha, hr]
    have hga : lst.getD i 0 = lst.get ⟨i, hilt⟩ := by
      rw [List.getD_eq_get?, ha]
      rfl
    have hgr : ref.getD i 0 = ref.get ⟨i, hiref⟩ := by
      rw [List.getD_eq_get?, hr]
      rfl
    rw [hga, hgr]
    rfl

/-- Witness for `relative_row_length_amended` on `[1,2]` against `[3,4]`. -/
theorem relative_row_length_amended_witness :
    [(1:ℝ), 2].length ≤ [(3:ℝ), 4].length
    ∧ relative_row [(1:ℝ), 2] [3, 4]
        = some ((List.range [(1:ℝ), 2].length).map
            fun i => [(1:ℝ), 2].getD i 0 / [(3:ℝ), 4].getD i 0) :=
  ⟨by norm_num, (relative_row_length_amended [(1:ℝ), 2] [3, 4]).2 (by norm_num)⟩

/-! ## Rank-guarded file writes (C8)

From `GeneralProblem.write_status_file` (lines 540-547),
`GeneralProblem.remove_status_file` (lines 549-554) and
`GeneralProblem.report` (lines 425-529): file-system effects are modelled as
the list of operations a call performs on the given MPI rank. -/

/-- One file-system effect. -/
inductive FileOp where
  | write : String → FileOp
  | remove : String → FileOp
deriving DecidableEq

/-- Model of `GeneralProblem.write_status_file`: opens and writes
`<name>.run` with no rank guard — every rank performs the write. -/
def write_status_file (rank : ℕ) (name : String) : List FileOp :=
  [FileOp.write (name ++ ".run")]

/-- Model of `GeneralProblem.remove_status_file`: removes `<name>.run`
only on MPI rank 0 (`if self.MPI_rank == 0`). -/
def remove_status_file (rank : ℕ) (name : String) : List FileOp :=
  if rank = 0 then [FileOp.remove (name ++ ".run")] else []

/-- Model of `GeneralProblem.report`: writes the four report tables and the
timing table into the results directory, removes the status file (rank
guarded), and writes the `_OK.report` sentinel — none of the writes are rank
guarded. -/
def report_file_ops (rank : ℕ) (dir name : String) : List FileOp :=
  [FileOp.write (dir ++ "/report_time_lines.csv"),
   FileOp.write (dir ++ "/report_seconds.csv"),
   FileOp.write (dir ++ "/report.csv"),
   FileOp.write (dir ++ "/report_h.csv"),
   FileOp.write (dir ++ "/report_timecontrol.csv")]
  ++ remove_status_file rank name
  ++ [FileOp.write (name ++ "_OK.report")]

/-! ### C8 theorems -/

/-- C8 counterexample: on rank 1 (≠ 0) the status-file write and the report
writes still happen — the file system does not stay unchanged. -/
theorem write_status_file_rank_counterexample :
    write_status_file 1 "run1" = [FileOp.write ("run1" ++ ".run")]
    ∧ 0 < (write_status_file 1 "run1").length
    ∧ 0 < (report_file_ops 1 "dir1" "run1").length := by
  refine ⟨rfl, ?_, ?_⟩
  · simp [write_status_file]
  · simp [report_file_ops]

/-- C8 (amended): only the status-file *removal* is guarded to rank 0; the
status-file write is performed by every rank, and the report writes
(e.g. `report.csv` and the `_OK.report` sentinel) are performed by every
rank as well. -/
theorem rank_guard_amended (rank : ℕ) (dir name : String) :
    write_status_file rank name = [FileOp.write (name ++ ".run")]
    ∧ (rank ≠ 0 → remove_status_file rank name = [])
    ∧ remove_status_file 0 name = [FileOp.remove (name ++ ".run")]
    ∧ FileOp.write (dir ++ "/report.csv") ∈ report_file_ops rank dir name
    ∧ FileOp.write (name ++ "_OK.report") ∈ report_file_ops rank dir name := by
  refine ⟨rfl, fun h => ?_, ?_, ?_, ?_⟩
  · simp [remove_status_file, h]
  · simp [remove_status_file]
  · simp [report_file_ops]
  · simp [report_file_ops]

/-- Witness for `rank_guard_amended` on rank 1. -/
theorem rank_guard_amended_witness :
    (1 : ℕ) ≠ 0
    ∧ (write_status_file 1 "nm" = [FileOp.write ("nm" ++ ".run")]
      ∧ ((1 : ℕ) ≠ 0 → remove_status_file 1 "nm" = [])
      ∧ remove_status_file 0 "nm" = [FileOp.remove ("nm" ++ ".run")]
      ∧ FileOp.write ("dd" ++ "/report.csv") ∈ report_file_ops 1 "dd" "nm"
      ∧ FileOp.write ("nm" ++ "_OK.report") ∈ report_file_ops 1 "dd" "nm") :=
  ⟨by norm_num, rank_guard_amended 1 "dd" "nm"⟩

/-! ## Boundary subdomain classification (C5)

From `prepare_real_mesh.py`: the input plane definitions (lines 23-33), the
tolerance (lines 42-51), `vec` and the per-plane `d` (lines 55-60),
`point_in_subdomain` (lines 63-67) and the facet-marking loop (lines 70-79).
Points and normals are coordinate lists over exact rationals (the source's
decimal literals). -/

/-- One plane definition `{'number': N, 'normal': n, 'center': c}`. -/
structure PlaneObj where
  number : ℤ
  normal : List ℚ
  center : List ℚ

/-- Source: `vec(list1, list2) = sum(i[0]*i[1] for i in zip(list1, list2))`. -/
def vec (list1 list2 : List ℚ) : ℚ := ((list1.zip list2).map fun i => i.1 * i.2).sum

/-- Source: `obj['d'] = vec(obj['center'], obj['normal'])`. -/
def dOf (obj : PlaneObj) : ℚ := vec obj.center obj.normal

/-- The minimum-edge loop (`edge_min = 1000; for e in edges(mesh): ...`),
over the list of edge lengths of the mesh. -/
def edge_min (lengths : List ℚ) : ℚ :=
  lengths.foldl (fun m l => if l < m then l else m) 1000

/-- Source: `tol = edge_min/10.`. -/
def tol (lengths : List ℚ) : ℚ := edge_min lengths / 10

/-- Model of `point_in_subdomain(p)`: scan `itertools.chain(inflows, outflows)`
in order and return the *first* plane number with
`abs(vec(p, obj['normal']) - obj['d']) < tol`; `none` models Python's
implicit `None` when no plane matches. -/
def point_in_subdomain (chain : List PlaneObj) (tolerance : ℚ) (p : List ℚ) : Option ℤ :=
  (chain.find? fun obj => decide (|vec p obj.normal - dOf obj| < tolerance)).map
    PlaneObj.number

/-- Model of the facet-marking loop: for `num in number_list` (in order),
assign `num` iff `all(point_in_subdomain(v.point()) == num for v in vertices)`
and no earlier number was set; facets matching no number get the wall id 1. -/
def classify_facet (chain : List PlaneObj) (number_list : List ℤ) (tolerance : ℚ)
    (verts : List (List ℚ)) : ℤ :=
  match number_list.find? (fun num =>
      verts.all fun v => point_in_subdomain chain tolerance v == some num) with
  | some num => num
  | none => 1

/-- Source input data: inflow plane 2. -/
def inflow2 : PlaneObj :=
  ⟨2, [0, 1, 0], [159128/100000, -136391/10000, 724912/100000]⟩

/-- Source input data: inflow plane 4. -/
def inflow4 : PlaneObj :=
  ⟨4, [1/10, -1, -37/100], [-402584/100000, 770146/100000, 877694/100000]⟩

/-- Source input data: outflow plane 3. -/
def outflow3 : PlaneObj :=
  ⟨3, [-838444/1000000, 0, 544988/1000000], [113086/10000, -985461/1000000, -564479/100000]⟩

/-- Source input data: outflow plane 5. -/
def outflow5 : PlaneObj :=
  ⟨5, [-1, 0, 0], [206585/10000, -138651/100000, -124815/100000]⟩

/-- Source: `itertools.chain(inflows, outflows)` — the scan order of
`point_in_subdomain` is 2, 4, 3, 5. -/
def planes_chain : List PlaneObj := [inflow2, inflow4] ++ [outflow3, outflow5]

/-- Source: `number_list = [2, 3, 4, 5]`. -/
def number_list : List ℤ := [2, 3, 4, 5]

/-- A vertex lying exactly on both plane 2 and plane 4 (their intersection
line at `z = 0`). -/
def vertA : List ℚ := [-249906118/1000000, -136391/10000, 0]

/-- Second facet vertex: `vertA` shifted inside plane 4 (direction `(10,1,0)`),
off plane 2 by 1. -/
def vertB : List ℚ := [-239906118/1000000, -126391/10000, 0]

/-- Third facet vertex: `vertA` shifted inside plane 4 by `(20,2,0)`,
off plane 2 by 2. -/
def vertC : List ℚ := [-229906118/1000000, -116391/10000, 0]

/-- The degenerate facet used as counterexample input. -/
def facetABC : List (List ℚ) := [vertA, vertB, vertC]

/-- Vertex `vertA` lies on plane 2 (scanned first in the chain), so its
first match is plane 2 even though it also lies on plane 4. -/
theorem point_in_subdomain_vertA :
    point_in_subdomain planes_chain (1/1000) vertA = some 2 := by
  unfold point_in_subdomain planes_chain
  rw [List.cons_append, List.find?_cons_of_pos]
  · simp [inflow2]
  · rw [decide_eq_true_eq]
    norm_num [vec, dOf, inflow2, vertA]

/-- Vertex `vertB` lies on plane 4 only; its first match is plane 4. -/
theorem point_in_subdomain_vertB :
    point_in_subdomain planes_chain (1/1000) vertB = some 4 := by
  unfold point_in_subdomain planes_chain
  rw [List.cons_append, List.find?_cons_of_neg, List.cons_append, List.find?_cons_of_pos]
  · simp [inflow4]
  · rw [decide_eq_true_eq]
    norm_num [vec, dOf, inflow4, vertB]
  · rw [Bool.not_eq_true, decide_eq_false_iff_not]
    norm_num [vec, dOf, inflow2, vertB]

/-- Vertex `vertC` lies on plane 4 only; its first match is plane 4. -/
theorem point_in_subdomain_vertC :
    point_in_subdomain planes_chain (1/1000) vertC = some 4 := by
  unfold point_in_subdomain planes_chain
  rw [List.cons_append, List.find?_cons_of_neg, List.cons_append, List.find?_cons_of_pos]
  · simp [inflow4]
  · rw [decide_eq_true_eq]
    norm_num [vec, dOf, inflow4, vertC]
  · rw [Bool.not_eq_true, decide_eq_false_iff_not]
    norm_num [vec, dOf, inflow2, vertC]

/-- The center of plane 2 first-matches plane 2. -/
theorem point_in_subdomain_center2 :
    point_in_subdomain planes_chain (1/1000) inflow2.center = some 2 := by
  unfold point_in_subdomain planes_chain
  rw [List.cons_append, List.find?_cons_of_pos]
  · simp [inflow2]
  · rw [decide_eq_true_eq]
    norm_num [vec, dOf, inflow2]

/-- The origin matches no plane within tolerance `1/1000`. -/
theorem point_in_subdomain_origin :
    point_in_subdomain planes_chain (1/1000) [0, 0, 0] = none := by
  unfold point_in_subdomain planes_chain
  rw [List.cons_append, List.find?_cons_of_neg, List.cons_append, List.find?_cons_of_neg,
    List.nil_append, List.find?_cons_of_neg, List.find?_cons_of_neg, List.find?_nil]
  · rfl
  · rw [Bool.not_eq_true, decide_eq_false_iff_not, not_lt, le_abs]
    left
    norm_num [vec, dOf, outflow5]
  · rw [Bool.not_eq_true, decide_eq_false_iff_not, not_lt, le_abs]
    left
    norm_num [vec, dOf, outflow3]
  · rw [Bool.not_eq_true, decide_eq_false_iff_not, not_lt, le_abs]
    left
    norm_num [vec, dOf, inflow4]
  · rw [Bool.not_eq_true, decide_eq_false_iff_not, not_lt, le_abs]
    left
    norm_num [vec, dOf, inflow2]

/-! ### C5 theorems -/

/-- C5 counterexample: with tolerance `tol = edge_min/10 = 1/1000` (for
`edge_min = 1/100`), every vertex of the facet `[vertA, vertB, vertC]` lies
within tolerance of plane 4's equation — by the claim's iff the facet would
be assigned id 4 — yet the classifier assigns wall id 1: `vertA` also lies
on plane 2, which is scanned first in `point_in_subdomain`, so the per-vertex
first matches are `2, 4, 4` and no candidate id passes the all-vertices
test. -/
theorem classify_facet_plane_membership_counterexample :
    tol [1/100] = 1/1000
    ∧ |vec vertA inflow4.normal - dOf inflow4| < 1/1000
    ∧ |vec vertB inflow4.normal - dOf inflow4| < 1/1000
    ∧ |vec vertC inflow4.normal - dOf inflow4| < 1/1000
    ∧ classify_facet planes_chain number_list (1/1000) facetABC = 1
    ∧ (1 : ℤ) < 4 := by
  refine ⟨?_, ?_, ?_, ?_, ?_, by norm_num⟩
  · norm_num [tol, edge_min]
  · norm_num [vec, dOf, inflow4, vertA]
  · norm_num [vec, dOf, inflow4, vertB]
  · norm_num [vec, dOf, inflow4, vertC]
  · simp only [classify_facet, number_list, facetABC, List.all_cons, List.all_nil,
      point_in_subdomain_vertA, point_in_subdomain_vertB, point_in_subdomain_vertC]
    decide

/-- C5 (amended): the classifier assigns a facet the id `num` iff every
vertex's *first* matching plane — scanning the inflows then the outflows in
their declared order — is the plane numbered `num` (candidate ids being
tried in `number_list` order); a facet for which no candidate id passes that
all-vertices test is assigned wall id 1; and the tolerance is
`edge_min/10`.  Merely lying within tolerance of a plane's equation is not
sufficient. -/
theorem classify_facet_first_match_amended (chain : List PlaneObj) (nums : List ℤ)
    (tolerance : ℚ) (verts : List (List ℚ)) (num : ℤ) :
    (verts ≠ [] →
      (verts.all fun v => point_in_subdomain chain tolerance v == some num) = true →
      num ∈ nums →
      classify_facet chain nums tolerance verts = num)
    ∧ ((nums.all fun n =>
          !(verts.all fun v => point_in_subdomain chain tolerance v == some n)) = true →
        classify_facet chain nums tolerance verts = 1)
    ∧ (∀ lengths : List ℚ, tol lengths = edge_min lengths / 10) := by
  refine ⟨?_, ?_, fun _ => rfl⟩
  · intro hne hall hmem
    obtain ⟨v0, hv0⟩ : ∃ v, v ∈ verts := List.exists_mem_of_ne_nil verts hne
    have hv0num : point_in_subdomain chain tolerance v0 = some num :=
      beq_iff_eq.mp ((List.all_eq_true.mp hall) v0 hv0)
    have hkey : ∀ n : ℤ,
        (verts.all fun v => point_in_subdomain chain tolerance v == some n) = true →
        n = num := by
      intro n hn
      have h2 : point_in_subdomain chain tolerance v0 = some n :=
        beq_iff_eq.mp ((List.all_eq_true.mp hn) v0 hv0)
      rw [hv0num] at h2
      exact (Option.some_inj.mp h2).symm
    have haux : ∀ ns : List ℤ, num ∈ ns →
        ns.find? (fun n => verts.all fun v => point_in_subdomain chain tolerance v == some n)
          = some num := by
      intro ns
      induction ns with
      | nil => intro h; exact absurd h (List.not_mem_nil num)
      | cons a l ih =>
        intro hm
        by_cases ha :
            (verts.all fun v => point_in_subdomain chain tolerance v == some a) = true
        · rw [List.find?_cons_of_pos
            (p := fun n => verts.all fun v => point_in_subdomain chain tolerance v == some n)
            l ha, hkey a ha]
        · rw [List.find?_cons_of_neg
            (p := fun n => verts.all fun v => point_in_subdomain chain tolerance v == some n)
            l ha]
          apply ih
          rcases List.mem_cons.mp hm with h | h
          · exact absurd (h ▸ hall) ha
          · exact h
    unfold classify_facet
    rw [haux nums hmem]
  · intro h
    unfold classify_facet
    have hnone :
        nums.find? (fun n => verts.all fun v => point_in_subdomain chain tolerance v == some n)
          = none := by
      rw [List.find?_eq_none]
      intro x hx
      have hx2 := (List.all_eq_true.mp h) x hx
      simp only [Bool.not_eq_eq_eq_not, Bool.not_true] at hx2
      simp [hx2]
    rw [hnone]

/-- Witness for `classify_facet_first_match_amended`: the one-vertex facet at
plane 2's center is classified 2, and the one-vertex facet at the origin is
classified as wall 1. -/
theorem classify_facet_first_match_amended_witness :
    (([inflow2.center] : List (List ℚ)) ≠ []
      ∧ (([inflow2.center] : List (List ℚ)).all
          (fun v => point_in_subdomain planes_chain (1/1000) v == some 2)) = true
      ∧ (2 : ℤ) ∈ number_list
      ∧ classify_facet planes_chain number_list (1/1000) [inflow2.center] = 2)
    ∧ ((number_list.all fun n =>
          !(([[(0:ℚ), 0, 0]] : List (List ℚ)).all
            fun v => point_in_subdomain planes_chain (1/1000) v == some n)) = true
      ∧ classify_facet planes_chain number_list (1/1000) [[(0:ℚ), 0, 0]] = 1) := by
  have h1 : ([inflow2.center] : List (List ℚ)) ≠ [] := by simp
  have h2 : (([inflow2.center] : List (List ℚ)).all
      (fun v => point_in_subdomain planes_chain (1/1000) v == some 2)) = true := by
    simp only [List.all_cons, List.all_nil, point_in_subdomain_center2]
    decide
  have h3 : (2 : ℤ) ∈ number_list := by simp [number_list]
  have h4 : (number_list.all fun n =>
      !(([[(0:ℚ), 0, 0]] : List (List ℚ)).all
        fun v => point_in_subdomain planes_chain (1/1000) v == some n)) = true := by
    simp only [number_list, List.all_cons, List.all_nil, point_in_subdomain_origin]
    decide
  exact ⟨⟨h1, h2, h3,
      (classify_facet_first_match_amended planes_chain number_list (1/1000)
        [inflow2.center] 2).1 h1 h2 h3⟩,
    ⟨h4,
      (classify_facet_first_match_amended planes_chain number_list (1/1000)
        [[(0:ℚ), 0, 0]] 2).2.1 h4⟩⟩

end Projection
